import Mathlib

/-!
# StorageCohort API types (pkg/apis/openebs.io/scp/v1alpha1/storage-cohort.go)

The Go file declares the records of the StorageCohort custom resource together with
their json struct tags.  The development below embeds

* every record of the file as a Lean structure, field for field;
* the document form that encoding/json gives a record by its struct tags (key names,
  omitempty, inline embedding), as a marshal function per record;
* the reading of a document back into a record by encoding/json, as an unmarshal
  function per record that decodes into a current value, key after key.

Types that the file imports from other packages (metav1.ObjectMeta, metav1.ListMeta,
metav1.LabelSelector, metav1.Time) and the two types of the package that are declared
in other files (Capabilities, StorageVolume) are parameters, bundled in External.
Two small declarations of the imported packages are written out: metav1.TypeMeta, which
is embedded inline, and corev1.ConditionStatus, a named string type.

Conventions of the embedding:

* a Go string is a String: the strings of a record are valid UTF-8 (json.Marshal
  replaces the bytes of a string that are not by U+FFFD);
* a slice that is the field of a record is a List; the nil slice and the empty slice
  are both the empty list (len, range and the omitempty test do not tell them apart),
  so equality of records is equality up to nil versus empty slices;
* a Go pointer is an Option, nil being none;
* the key of a member names a field when it is the name of the tag up to the case
  folding of encoding/json (keyMatches);
* a document number is the rational number its text denotes; float64 is a type
  parameter with the number json.Marshal writes for a float (formatFloat, none for NaN
  and the infinities) and the float a document number is read as (parseFloat, none when
  it is out of range);
* an empty interface holds a GoAny, a fragment of the Go values; a non-nil map held in
  an interface is the list of its entries in ascending key order, the order in which Go
  writes a map;
* json.Unmarshal refuses a document nested deeper than 10000 levels (jsonUnmarshal);
* an array member is decoded into the elements its slice holds, as far as the slice
  has them, and into fresh elements beyond its length; the elements a slice keeps in its
  spare capacity after a shorter array are not followed.

The definitions come first, the theorems follow.
-/

namespace StorageCohortAPI

/-! ## Documents -/

/-- A document: the tree a JSON text denotes.  Object members keep their order and may
repeat a key, as in the text; a string is the text it denotes, escapes resolved; a
number is the rational it denotes (the numbers of a text are the decimal ones). -/
inductive JSONValue where
  | null
  | bool (b : Bool)
  | number (q : ℚ)
  | string (s : String)
  | array (items : List JSONValue)
  | object (members : List (String × JSONValue))

mutual
/-- The nesting depth of a document: the number of arrays and objects that are open at
its deepest point. -/
def JSONValue.depth : JSONValue → Nat
  | .null => 0
  | .bool _ => 0
  | .number _ => 0
  | .string _ => 0
  | .array items => JSONValue.depthItems items + 1
  | .object members => JSONValue.depthMembers members + 1
/-- The depth of the deepest element of an array. -/
def JSONValue.depthItems : List JSONValue → Nat
  | [] => 0
  | j :: rest => max (JSONValue.depth j) (JSONValue.depthItems rest)
/-- The depth of the deepest member of an object. -/
def JSONValue.depthMembers : List (String × JSONValue) → Nat
  | [] => 0
  | (_, j) :: rest => max (JSONValue.depth j) (JSONValue.depthMembers rest)
end

/-- The constant maxNestingDepth of encoding/json. -/
def maxNestingDepth : Nat := 10000

/-- The call json.Unmarshal(data, &cur) for a target decoded by dec: the scan of the
document fails beyond the nesting limit, before anything is decoded. -/
def jsonUnmarshal {σ : Type} (dec : σ → JSONValue → Except String σ) (cur : σ)
    (doc : JSONValue) : Except String σ :=
  if maxNestingDepth < doc.depth then .error "exceeded max depth" else dec cur doc

/-- The fold of one character of a key: a small ASCII letter becomes the capital, the
Kelvin sign and the long s become K and S, the only characters outside ASCII that
encoding/json folds onto an ASCII letter.  Other characters are left as they are, which
decides the comparison with a tag name, all of whose characters are ASCII. -/
def foldRune (c : Char) : Nat :=
  if 97 ≤ c.toNat ∧ c.toNat ≤ 122 then c.toNat - 32
  else if c.toNat = 0x212A then 75
  else if c.toNat = 0x17F then 83
  else c.toNat

/-- The folded name of a key. -/
def foldName (s : String) : List Nat :=
  s.data.map foldRune

/-- Whether the key of a member names the field with the given tag name: encoding/json
takes the field whose name is the key, and failing that the field whose name is the key
up to case folding.  No two tag names of one record fold to the same name, so both come
to the comparison of the folded names. -/
def keyMatches (key name : String) : Bool :=
  foldName key == foldName name

/-- Whether a document is an object that has a member with the given key. -/
def hasKey (key : String) : JSONValue → Bool
  | .object members => members.any (fun kv => kv.1 == key)
  | _ => false

/-- One member, always written (a struct tag without omitempty). -/
def field (key : String) (value : JSONValue) : List (String × JSONValue) :=
  [(key, value)]

/-- One member, left out when the Go value is empty (a struct tag with omitempty). -/
def omitEmpty (empty : Bool) (key : String) (value : JSONValue) : List (String × JSONValue) :=
  if empty then [] else [(key, value)]

/-- The object a struct is written as: the members of its fields, in declaration
order. -/
def struct (fields : List (List (String × JSONValue))) : JSONValue :=
  .object fields.flatten

/-- Decoding into a Go string: a document string is stored, null leaves the current
value, anything else is a type error. -/
def decodeString (cur : String) : JSONValue → Except String String
  | .string s => .ok s
  | .null => .ok cur
  | _ => .error "cannot unmarshal into Go value of type string"

/-- Decoding into a Go struct: null leaves the current value; the members of an object
are handed to the struct one after the other, each assigning the field its key names
(a later member with the same key decodes into what the earlier one left). -/
def decodeStruct {σ : Type} (step : σ → String → JSONValue → Except String σ) (cur : σ) :
    JSONValue → Except String σ
  | .null => .ok cur
  | .object members => members.foldlM (fun s kv => step s kv.1 kv.2) cur
  | _ => .error "cannot unmarshal into Go struct"

/-- Decoding the elements of an array into a slice: the element at an index the slice
has is decoded into the element the slice holds there, an element beyond its length
into a fresh zero value. -/
def decodeItems {α : Type} (zero : α) (dec : α → JSONValue → Except String α) :
    List α → List JSONValue → Except String (List α)
  | _, [] => .ok []
  | cur, j :: rest =>
    match dec (cur.headD zero) j with
    | .error e => .error e
    | .ok a => (decodeItems zero dec cur.tail rest).map (fun items => a :: items)

/-- Decoding into a Go slice: null gives the nil slice, an array is decoded element by
element into the slice, which ends with as many elements as the array has, anything
else is a type error. -/
def decodeSlice {α : Type} (zero : α) (dec : α → JSONValue → Except String α)
    (cur : List α) : JSONValue → Except String (List α)
  | .null => .ok []
  | .array items => decodeItems zero dec cur items
  | _ => .error "cannot unmarshal into Go slice"

/-- Decoding into a Go pointer: null gives nil; any other document is decoded into the
value pointed to, a fresh zero value when the pointer is nil. -/
def decodePointer {α : Type} (zero : α) (dec : α → JSONValue → Except String α)
    (cur : Option α) : JSONValue → Except String (Option α)
  | .null => .ok none
  | j => (dec (cur.getD zero) j).map some

/-! ## Types declared outside the file -/

/-- What the embedding needs of a Go type declared elsewhere: its zero value, the
omitempty test on it (constantly false for a struct type), its document form and the
decoding of a document into a current value. -/
structure Codec (α : Type) where
  zero : α
  isEmptyValue : α → Bool
  marshal : α → JSONValue
  unmarshal : α → JSONValue → Except String α

/-- The types the file uses and does not declare: metav1.ObjectMeta, metav1.ListMeta,
metav1.LabelSelector and metav1.Time of k8s.io/apimachinery, Capabilities and
StorageVolume of this package, and float64, the Go type a document number is read as
into an empty interface. -/
structure External where
  ObjectMeta : Type
  ListMeta : Type
  LabelSelector : Type
  Time : Type
  Capabilities : Type
  StorageVolume : Type
  Float64 : Type
  formatFloat : Float64 → Option ℚ
  parseFloat : ℚ → Option Float64
  objectMeta : Codec ObjectMeta
  listMeta : Codec ListMeta
  labelSelector : Codec LabelSelector
  time : Codec Time
  capabilities : Codec Capabilities
  storageVolume : Codec StorageVolume

/-- The type metav1.TypeMeta of k8s.io/apimachinery, embedded inline in the resource
and in its list: Kind with tag kind,omitempty and APIVersion with tag
apiVersion,omitempty. -/
structure TypeMeta where
  Kind : String
  APIVersion : String
deriving DecidableEq

/-- The type corev1.ConditionStatus of k8s.io/api/core/v1, declared there as
type ConditionStatus string: a named string type. -/
structure ConditionStatus where
  s : String
deriving DecidableEq

/-- The constant corev1.ConditionTrue. -/
def ConditionTrue : ConditionStatus := ⟨"True"⟩

/-- The constant corev1.ConditionFalse. -/
def ConditionFalse : ConditionStatus := ⟨"False"⟩

/-- The constant corev1.ConditionUnknown. -/
def ConditionUnknown : ConditionStatus := ⟨"Unknown"⟩

/-! ## The records of the file -/

/-- Line 141: type CohortConditionType string, a named string type. -/
structure CohortConditionType where
  s : String
deriving DecidableEq

/-- Line 148: CohortConditionTypeReady CohortConditionType = "Ready". -/
def CohortConditionTypeReady : CohortConditionType := ⟨"Ready"⟩

/-- Line 150: CohortConditionTypeSchedulable CohortConditionType = "Schedulable". -/
def CohortConditionTypeSchedulable : CohortConditionType := ⟨"Schedulable"⟩

/-- Lines 110-123: CohortCondition.  The field Type is spelled Type_ here. -/
structure CohortCondition (X : External) where
  Type_ : CohortConditionType
  Status : ConditionStatus
  LastHeartbeatTime : X.Time
  LastTransitionTime : X.Time
  Reason : String
  Message : String

/-- Lines 126-139: ComponentCondition.  The field Type is spelled Type_ here. -/
structure ComponentCondition (X : External) where
  Type_ : String
  Status : ConditionStatus
  LastHeartbeatTime : X.Time
  LastTransitionTime : X.Time
  Reason : String
  Message : String

/-- Lines 98-107: CohortNodeCondition. -/
structure CohortNodeCondition (X : External) where
  Name : String
  Condition : List (ComponentCondition X)

/-- Lines 79-94: ComponentStatus. -/
structure ComponentStatus (X : External) where
  CohortCondition : List (CohortCondition X)
  CohortManagerCondition : List (ComponentCondition X)
  NodeCondition : List (CohortNodeCondition X)

/-- Lines 65-73: StorageCohortStatus. -/
structure StorageCohortStatus (X : External) where
  Components : List (ComponentStatus X)
  Capabilities : X.Capabilities

/-! ## Zero values -/

/-- The zero value of CohortCondition. -/
def CohortCondition.zero (X : External) : CohortCondition X :=
  ⟨⟨""⟩, ⟨""⟩, X.time.zero, X.time.zero, "", ""⟩

/-- The zero value of ComponentCondition. -/
def ComponentCondition.zero (X : External) : ComponentCondition X :=
  ⟨"", ⟨""⟩, X.time.zero, X.time.zero, "", ""⟩

/-- The zero value of CohortNodeCondition. -/
def CohortNodeCondition.zero (X : External) : CohortNodeCondition X :=
  ⟨"", []⟩

/-- The zero value of ComponentStatus. -/
def ComponentStatus.zero (X : External) : ComponentStatus X :=
  ⟨[], [], []⟩

/-- The zero value of StorageCohortStatus. -/
def StorageCohortStatus.zero (X : External) : StorageCohortStatus X :=
  ⟨[], X.capabilities.zero⟩

/-! ## Document form of the conditions -/

/-- The document of a CohortCondition, by the tags of lines 112-122: type and status
always; the two times and reason and message under omitempty. -/
def marshalCohortCondition (X : External) (c : CohortCondition X) : JSONValue :=
  struct [
    field "type" (.string c.Type_.s),
    field "status" (.string c.Status.s),
    omitEmpty (X.time.isEmptyValue c.LastHeartbeatTime) "lastHeartbeatTime"
      (X.time.marshal c.LastHeartbeatTime),
    omitEmpty (X.time.isEmptyValue c.LastTransitionTime) "lastTransitionTime"
      (X.time.marshal c.LastTransitionTime),
    omitEmpty (c.Reason == "") "reason" (.string c.Reason),
    omitEmpty (c.Message == "") "message" (.string c.Message)]

/-- The document of a ComponentCondition, by the tags of lines 128-138. -/
def marshalComponentCondition (X : External) (c : ComponentCondition X) : JSONValue :=
  struct [
    field "type" (.string c.Type_),
    field "status" (.string c.Status.s),
    omitEmpty (X.time.isEmptyValue c.LastHeartbeatTime) "lastHeartbeatTime"
      (X.time.marshal c.LastHeartbeatTime),
    omitEmpty (X.time.isEmptyValue c.LastTransitionTime) "lastTransitionTime"
      (X.time.marshal c.LastTransitionTime),
    omitEmpty (c.Reason == "") "reason" (.string c.Reason),
    omitEmpty (c.Message == "") "message" (.string c.Message)]

/-- The document of a CohortNodeCondition, by the tags of lines 102-106: name always,
condition under omitempty. -/
def marshalCohortNodeCondition (X : External) (c : CohortNodeCondition X) : JSONValue :=
  struct [
    field "name" (.string c.Name),
    omitEmpty c.Condition.isEmpty "condition"
      (.array (c.Condition.map (marshalComponentCondition X)))]

/-! ## Reading the conditions back -/

/-- One member decoded into a CohortCondition: into the field its key names; a key that
names no field is skipped. -/
def CohortCondition.step (X : External) (c : CohortCondition X) (key : String)
    (j : JSONValue) : Except String (CohortCondition X) :=
  if keyMatches key "type" then
    (decodeString c.Type_.s j).map (fun v => { c with Type_ := ⟨v⟩ })
  else if keyMatches key "status" then
    (decodeString c.Status.s j).map (fun v => { c with Status := ⟨v⟩ })
  else if keyMatches key "lastHeartbeatTime" then
    (X.time.unmarshal c.LastHeartbeatTime j).map (fun v => { c with LastHeartbeatTime := v })
  else if keyMatches key "lastTransitionTime" then
    (X.time.unmarshal c.LastTransitionTime j).map (fun v => { c with LastTransitionTime := v })
  else if keyMatches key "reason" then
    (decodeString c.Reason j).map (fun v => { c with Reason := v })
  else if keyMatches key "message" then
    (decodeString c.Message j).map (fun v => { c with Message := v })
  else .ok c

/-- Decoding a document into a CohortCondition. -/
def unmarshalCohortCondition (X : External) :
    CohortCondition X → JSONValue → Except String (CohortCondition X) :=
  decodeStruct (CohortCondition.step X)

/-- One member decoded into a ComponentCondition. -/
def ComponentCondition.step (X : External) (c : ComponentCondition X) (key : String)
    (j : JSONValue) : Except String (ComponentCondition X) :=
  if keyMatches key "type" then
    (decodeString c.Type_ j).map (fun v => { c with Type_ := v })
  else if keyMatches key "status" then
    (decodeString c.Status.s j).map (fun v => { c with Status := ⟨v⟩ })
  else if keyMatches key "lastHeartbeatTime" then
    (X.time.unmarshal c.LastHeartbeatTime j).map (fun v => { c with LastHeartbeatTime := v })
  else if keyMatches key "lastTransitionTime" then
    (X.time.unmarshal c.LastTransitionTime j).map (fun v => { c with LastTransitionTime := v })
  else if keyMatches key "reason" then
    (decodeString c.Reason j).map (fun v => { c with Reason := v })
  else if keyMatches key "message" then
    (decodeString c.Message j).map (fun v => { c with Message := v })
  else .ok c

/-- Decoding a document into a ComponentCondition. -/
def unmarshalComponentCondition (X : External) :
    ComponentCondition X → JSONValue → Except String (ComponentCondition X) :=
  decodeStruct (ComponentCondition.step X)

/-- One member decoded into a CohortNodeCondition. -/
def CohortNodeCondition.step (X : External) (c : CohortNodeCondition X) (key : String)
    (j : JSONValue) : Except String (CohortNodeCondition X) :=
  if keyMatches key "name" then
    (decodeString c.Name j).map (fun v => { c with Name := v })
  else if keyMatches key "condition" then
    (decodeSlice (ComponentCondition.zero X) (unmarshalComponentCondition X) c.Condition j).map
      (fun v => { c with Condition := v })
  else .ok c

/-- Decoding a document into a CohortNodeCondition. -/
def unmarshalCohortNodeCondition (X : External) :
    CohortNodeCondition X → JSONValue → Except String (CohortNodeCondition X) :=
  decodeStruct (CohortNodeCondition.step X)


/-! ## The untyped cohort manager -/

/-- The values an interface can hold, as far as the embedding follows them: the six
shapes a document decodes to (nil, bool, float64, string, a non-nil []interface and a
non-nil map[string]interface) and three shapes it never decodes to (the nil
[]interface, the nil map[string]interface and a non-nil []string).  A map is the list
of its entries in ascending key order. -/
inductive GoAny (F : Type) where
  | nil
  | bool (b : Bool)
  | float64 (x : F)
  | string (s : String)
  | slice (items : List (GoAny F))
  | map (entries : List (String × GoAny F))
  | nilSlice
  | nilMap
  | strings (items : List String)

/-- Storing a value under a key of a map: an entry with the key is replaced, a new key
takes its place in the key order. -/
def mapStore {F : Type} (k : String) (v : GoAny F) :
    List (String × GoAny F) → List (String × GoAny F)
  | [] => [(k, v)]
  | e :: rest =>
    if k = e.1 then (k, v) :: rest
    else if k < e.1 then (k, v) :: e :: rest
    else e :: mapStore k v rest

mutual
/-- The document of a value held in an interface: the document of the value itself,
whatever its Go type.  A float that has no number is an error, a nil slice and a nil
map are written null, a map is written in key order. -/
def marshalAny {F : Type} (fmt : F → Option ℚ) : GoAny F → Except String JSONValue
  | .nil => .ok .null
  | .bool b => .ok (.bool b)
  | .float64 x =>
    match fmt x with
    | some q => .ok (.number q)
    | none => .error "json: unsupported value"
  | .string s => .ok (.string s)
  | .slice items => (marshalAnyItems fmt items).map .array
  | .map entries => (marshalAnyEntries fmt entries).map .object
  | .nilSlice => .ok .null
  | .nilMap => .ok .null
  | .strings items => .ok (.array (items.map .string))
/-- The documents of the elements of a slice. -/
def marshalAnyItems {F : Type} (fmt : F → Option ℚ) :
    List (GoAny F) → Except String (List JSONValue)
  | [] => .ok []
  | v :: rest =>
    match marshalAny fmt v with
    | .error e => .error e
    | .ok j => (marshalAnyItems fmt rest).map (fun js => j :: js)
/-- The members of the entries of a map. -/
def marshalAnyEntries {F : Type} (fmt : F → Option ℚ) :
    List (String × GoAny F) → Except String (List (String × JSONValue))
  | [] => .ok []
  | (k, v) :: rest =>
    match marshalAny fmt v with
    | .error e => .error e
    | .ok j => (marshalAnyEntries fmt rest).map (fun ms => (k, j) :: ms)
end

mutual
/-- Decoding a document into an empty interface: null gives nil, a number a float64
(an error when it is out of range), an array a []interface, an object a
map[string]interface. -/
def unmarshalAny {F : Type} (parse : ℚ → Option F) : JSONValue → Except String (GoAny F)
  | .null => .ok .nil
  | .bool b => .ok (.bool b)
  | .number q =>
    match parse q with
    | some x => .ok (.float64 x)
    | none => .error "cannot unmarshal number into Go value of type float64"
  | .string s => .ok (.string s)
  | .array items => (unmarshalAnyItems parse items).map .slice
  | .object members => (unmarshalAnyMembers parse [] members).map .map
/-- Decoding the elements of an array. -/
def unmarshalAnyItems {F : Type} (parse : ℚ → Option F) :
    List JSONValue → Except String (List (GoAny F))
  | [] => .ok []
  | j :: rest =>
    match unmarshalAny parse j with
    | .error e => .error e
    | .ok v => (unmarshalAnyItems parse rest).map (fun vs => v :: vs)
/-- Decoding the members of an object into a map, one after the other. -/
def unmarshalAnyMembers {F : Type} (parse : ℚ → Option F) (acc : List (String × GoAny F)) :
    List (String × JSONValue) → Except String (List (String × GoAny F))
  | [] => .ok acc
  | (k, j) :: rest =>
    match unmarshalAny parse j with
    | .error e => .error e
    | .ok v => unmarshalAnyMembers parse (mapStore k v acc) rest
end

mutual
/-- A value built from the six shapes a document decodes to, every float one that is
written as a number and read back from it, every map in ascending key order. -/
def GoAny.DocumentNative {F : Type} (fmt : F → Option ℚ) (parse : ℚ → Option F) :
    GoAny F → Prop
  | .nil => True
  | .bool _ => True
  | .float64 x => ∃ q, fmt x = some q ∧ parse q = some x
  | .string _ => True
  | .slice items => GoAny.ItemsNative fmt parse items
  | .map entries =>
    GoAny.EntriesNative fmt parse entries ∧
      (entries.map (fun e => e.1)).Pairwise (fun a b => a < b)
  | .nilSlice => False
  | .nilMap => False
  | .strings _ => False
/-- Every element of a slice is document native. -/
def GoAny.ItemsNative {F : Type} (fmt : F → Option ℚ) (parse : ℚ → Option F) :
    List (GoAny F) → Prop
  | [] => True
  | v :: rest => GoAny.DocumentNative fmt parse v ∧ GoAny.ItemsNative fmt parse rest
/-- Every value of a map is document native. -/
def GoAny.EntriesNative {F : Type} (fmt : F → Option ℚ) (parse : ℚ → Option F) :
    List (String × GoAny F) → Prop
  | [] => True
  | (_, v) :: rest => GoAny.DocumentNative fmt parse v ∧ GoAny.EntriesNative fmt parse rest
end

/-! ## The resource -/

/-- Lines 47-62: StorageCohortSpec.  NodeSelector is a pointer, CohortManager an empty
interface. -/
structure StorageCohortSpec (X : External) where
  NodeSelector : Option X.LabelSelector
  CohortManager : GoAny X.Float64
  DefaultStorageProvisioner : String

/-- Lines 30-44: StorageCohort.  TypeMeta and ObjectMeta are embedded. -/
structure StorageCohort (X : External) where
  TypeMeta : TypeMeta
  ObjectMeta : X.ObjectMeta
  Spec : StorageCohortSpec X
  Status : StorageCohortStatus X

/-- Lines 156-161: StorageCohortList. -/
structure StorageCohortList (X : External) where
  TypeMeta : TypeMeta
  ListMeta : X.ListMeta
  Items : List X.StorageVolume

/-- The zero value of StorageCohortSpec. -/
def StorageCohortSpec.zero (X : External) : StorageCohortSpec X :=
  ⟨none, .nil, ""⟩

/-- The zero value of StorageCohort. -/
def StorageCohort.zero (X : External) : StorageCohort X :=
  ⟨⟨"", ""⟩, X.objectMeta.zero, StorageCohortSpec.zero X, StorageCohortStatus.zero X⟩

/-! ## Document form of the resource -/

/-- The document of a ComponentStatus, by the tags of lines 85-93: the three lists
under omitempty. -/
def marshalComponentStatus (X : External) (c : ComponentStatus X) : JSONValue :=
  struct [
    omitEmpty c.CohortCondition.isEmpty "cohortCondition"
      (.array (c.CohortCondition.map (marshalCohortCondition X))),
    omitEmpty c.CohortManagerCondition.isEmpty "cohortManagerCondition"
      (.array (c.CohortManagerCondition.map (marshalComponentCondition X))),
    omitEmpty c.NodeCondition.isEmpty "nodeCondition"
      (.array (c.NodeCondition.map (marshalCohortNodeCondition X)))]

/-- The document of a StorageCohortStatus, by the tags of lines 68-72. -/
def marshalStorageCohortStatus (X : External) (s : StorageCohortStatus X) : JSONValue :=
  struct [
    omitEmpty s.Components.isEmpty "components"
      (.array (s.Components.map (marshalComponentStatus X))),
    omitEmpty (X.capabilities.isEmptyValue s.Capabilities) "capabilities"
      (X.capabilities.marshal s.Capabilities)]

/-- The document of a StorageCohortSpec, by the tags of lines 50-61: a nil pointer, a
nil interface and an empty string are left out.  Marshalling fails when the value held
in CohortManager has no document. -/
def marshalStorageCohortSpec (X : External) (s : StorageCohortSpec X) :
    Except String JSONValue :=
  (match s.CohortManager with
    | GoAny.nil => Except.ok []
    | v => (marshalAny X.formatFloat v).map (field "cohortManager")).map
  fun manager => struct [
    (match s.NodeSelector with
      | none => []
      | some sel => field "nodeSelector" (X.labelSelector.marshal sel)),
    manager,
    omitEmpty (s.DefaultStorageProvisioner == "") "defaultStorageProvisioner"
      (.string s.DefaultStorageProvisioner)]

/-- The document of a StorageCohort, by the tags of lines 31-43: the members of the
inline TypeMeta first, then metadata, spec and status.  The omitempty of status never
applies, StorageCohortStatus being a struct. -/
def marshalStorageCohort (X : External) (c : StorageCohort X) : Except String JSONValue :=
  (marshalStorageCohortSpec X c.Spec).map fun spec => struct [
    omitEmpty (c.TypeMeta.Kind == "") "kind" (.string c.TypeMeta.Kind),
    omitEmpty (c.TypeMeta.APIVersion == "") "apiVersion" (.string c.TypeMeta.APIVersion),
    omitEmpty (X.objectMeta.isEmptyValue c.ObjectMeta) "metadata"
      (X.objectMeta.marshal c.ObjectMeta),
    field "spec" spec,
    field "status" (marshalStorageCohortStatus X c.Status)]

/-! ## Reading the resource back -/

/-- One member decoded into a ComponentStatus. -/
def ComponentStatus.step (X : External) (c : ComponentStatus X) (key : String)
    (j : JSONValue) : Except String (ComponentStatus X) :=
  if keyMatches key "cohortCondition" then
    (decodeSlice (CohortCondition.zero X) (unmarshalCohortCondition X)
      c.CohortCondition j).map (fun v => { c with CohortCondition := v })
  else if keyMatches key "cohortManagerCondition" then
    (decodeSlice (ComponentCondition.zero X) (unmarshalComponentCondition X)
      c.CohortManagerCondition j).map (fun v => { c with CohortManagerCondition := v })
  else if keyMatches key "nodeCondition" then
    (decodeSlice (CohortNodeCondition.zero X) (unmarshalCohortNodeCondition X)
      c.NodeCondition j).map (fun v => { c with NodeCondition := v })
  else .ok c

/-- Decoding a document into a ComponentStatus. -/
def unmarshalComponentStatus (X : External) :
    ComponentStatus X → JSONValue → Except String (ComponentStatus X) :=
  decodeStruct (ComponentStatus.step X)

/-- One member decoded into a StorageCohortStatus. -/
def StorageCohortStatus.step (X : External) (s : StorageCohortStatus X) (key : String)
    (j : JSONValue) : Except String (StorageCohortStatus X) :=
  if keyMatches key "components" then
    (decodeSlice (ComponentStatus.zero X) (unmarshalComponentStatus X) s.Components j).map
      (fun v => { s with Components := v })
  else if keyMatches key "capabilities" then
    (X.capabilities.unmarshal s.Capabilities j).map (fun v => { s with Capabilities := v })
  else .ok s

/-- Decoding a document into a StorageCohortStatus. -/
def unmarshalStorageCohortStatus (X : External) :
    StorageCohortStatus X → JSONValue → Except String (StorageCohortStatus X) :=
  decodeStruct (StorageCohortStatus.step X)

/-- One member decoded into a StorageCohortSpec. -/
def StorageCohortSpec.step (X : External) (s : StorageCohortSpec X) (key : String)
    (j : JSONValue) : Except String (StorageCohortSpec X) :=
  if keyMatches key "nodeSelector" then
    (decodePointer X.labelSelector.zero X.labelSelector.unmarshal s.NodeSelector j).map
      (fun v => { s with NodeSelector := v })
  else if keyMatches key "cohortManager" then
    (unmarshalAny X.parseFloat j).map (fun v => { s with CohortManager := v })
  else if keyMatches key "defaultStorageProvisioner" then
    (decodeString s.DefaultStorageProvisioner j).map
      (fun v => { s with DefaultStorageProvisioner := v })
  else .ok s

/-- Decoding a document into a StorageCohortSpec. -/
def unmarshalStorageCohortSpec (X : External) :
    StorageCohortSpec X → JSONValue → Except String (StorageCohortSpec X) :=
  decodeStruct (StorageCohortSpec.step X)

/-- One member decoded into a StorageCohort. -/
def StorageCohort.step (X : External) (c : StorageCohort X) (key : String)
    (j : JSONValue) : Except String (StorageCohort X) :=
  if keyMatches key "kind" then
    (decodeString c.TypeMeta.Kind j).map
      (fun v => { c with TypeMeta := { c.TypeMeta with Kind := v } })
  else if keyMatches key "apiVersion" then
    (decodeString c.TypeMeta.APIVersion j).map
      (fun v => { c with TypeMeta := { c.TypeMeta with APIVersion := v } })
  else if keyMatches key "metadata" then
    (X.objectMeta.unmarshal c.ObjectMeta j).map (fun v => { c with ObjectMeta := v })
  else if keyMatches key "spec" then
    (unmarshalStorageCohortSpec X c.Spec j).map (fun v => { c with Spec := v })
  else if keyMatches key "status" then
    (unmarshalStorageCohortStatus X c.Status j).map (fun v => { c with Status := v })
  else .ok c

/-- Decoding a document into a StorageCohort. -/
def unmarshalStorageCohort (X : External) :
    StorageCohort X → JSONValue → Except String (StorageCohort X) :=
  decodeStruct (StorageCohort.step X)

/-- The round trip of a StorageCohort: json.Marshal, then json.Unmarshal of the document
into the zero value. -/
def roundTrip (X : External) (c : StorageCohort X) : Except String (StorageCohort X) :=
  marshalStorageCohort X c >>= jsonUnmarshal (unmarshalStorageCohort X) (StorageCohort.zero X)

/-- The nesting depth of the document of a StorageCohort, 0 when it has none. -/
def documentDepth (X : External) (c : StorageCohort X) : Nat :=
  match marshalStorageCohort X c with
  | .ok doc => doc.depth
  | .error _ => 0

/-! ## Vocabulary of the properties -/

/-- A value of a type declared elsewhere survives the trip through its own document
form: it is the zero value when omitempty leaves it out, and decoding its document
into the zero value gives it back. -/
def Codec.RoundTrips {α : Type} (C : Codec α) (v : α) : Prop :=
  (C.isEmptyValue v = true → v = C.zero) ∧ C.unmarshal C.zero (C.marshal v) = .ok v

/-- Both times of a CohortCondition survive the trip through their document form. -/
def CohortCondition.Portable {X : External} (c : CohortCondition X) : Prop :=
  X.time.RoundTrips c.LastHeartbeatTime ∧ X.time.RoundTrips c.LastTransitionTime

/-- Both times of a ComponentCondition survive the trip through their document form. -/
def ComponentCondition.Portable {X : External} (c : ComponentCondition X) : Prop :=
  X.time.RoundTrips c.LastHeartbeatTime ∧ X.time.RoundTrips c.LastTransitionTime

/-- The times of every condition of a node survive the trip. -/
def CohortNodeCondition.Portable {X : External} (n : CohortNodeCondition X) : Prop :=
  ∀ c ∈ n.Condition, c.Portable

/-- The times of every condition of a component survive the trip. -/
def ComponentStatus.Portable {X : External} (c : ComponentStatus X) : Prop :=
  (∀ d ∈ c.CohortCondition, d.Portable) ∧
  (∀ d ∈ c.CohortManagerCondition, d.Portable) ∧
  (∀ n ∈ c.NodeCondition, n.Portable)

/-- The times of every condition and the capabilities of a status survive the trip. -/
def StorageCohortStatus.Portable {X : External} (s : StorageCohortStatus X) : Prop :=
  (∀ c ∈ s.Components, c.Portable) ∧ X.capabilities.RoundTrips s.Capabilities

/-- The selector a non-nil NodeSelector points to is not written as null and survives
the trip, and the cohort manager holds a document native value. -/
def StorageCohortSpec.Portable {X : External} (s : StorageCohortSpec X) : Prop :=
  (∀ sel, s.NodeSelector = some sel →
    X.labelSelector.marshal sel ≠ .null ∧
    X.labelSelector.unmarshal X.labelSelector.zero (X.labelSelector.marshal sel) = .ok sel) ∧
  s.CohortManager.DocumentNative X.formatFloat X.parseFloat

/-- The parts of a StorageCohort that are declared elsewhere survive the trip through
their own document form, the cohort manager holds a document native value, and the
document is nested no deeper than json.Unmarshal accepts. -/
def StorageCohort.Portable {X : External} (c : StorageCohort X) : Prop :=
  X.objectMeta.RoundTrips c.ObjectMeta ∧ c.Spec.Portable ∧ c.Status.Portable ∧
  documentDepth X c ≤ maxNestingDepth

/-- The CohortCondition to ComponentCondition map of the structural comparison: Type
becomes its underlying string, the other five fields are copied. -/
def toComponentCondition (X : External) (c : CohortCondition X) : ComponentCondition X :=
  ⟨c.Type_.s, c.Status, c.LastHeartbeatTime, c.LastTransitionTime, c.Reason, c.Message⟩

/-- The map back: the string becomes a CohortConditionType by conversion. -/
def toCohortCondition (X : External) (c : ComponentCondition X) : CohortCondition X :=
  ⟨⟨c.Type_⟩, c.Status, c.LastHeartbeatTime, c.LastTransitionTime, c.Reason, c.Message⟩

/-- Modelled from the spec: the reading of a cohort level condition list as fully
functional, which no function of the file computes.  The comment of lines 81-83 and
the data model of the spec both say: fully functional when the Ready and the
Schedulable condition are True, non-functional otherwise. -/
def fullyFunctional {X : External} (l : List (CohortCondition X)) : Bool :=
  l.any (fun c => decide (c.Type_ = CohortConditionTypeReady ∧ c.Status = ConditionTrue)) &&
  l.any (fun c => decide (c.Type_ = CohortConditionTypeSchedulable ∧ c.Status = ConditionTrue))

/-- A codec of a type with one value, written as the empty object. -/
def unitCodec : Codec Unit where
  zero := ()
  isEmptyValue := fun _ => false
  marshal := fun _ => .object []
  unmarshal := fun _ j =>
    match j with
    | .null => .ok ()
    | .object _ => .ok ()
    | _ => .error "cannot unmarshal into Go struct"

/-- A codec of times counted in whole seconds, 0 being the zero time, which is written
null; another time is written as its number of seconds. -/
def secondsCodec : Codec Int where
  zero := 0
  isEmptyValue := fun _ => false
  marshal := fun t => if t = 0 then .null else .number t
  unmarshal := fun _ j =>
    match j with
    | .null => .ok 0
    | .number q => if q.den = 1 then .ok q.num else .error "cannot unmarshal into Time"
    | _ => .error "cannot unmarshal into Time"

/-- An instance of the outside types: times in whole seconds, floats that hold every
document number exactly, one value for each of the others. -/
@[reducible]
def plainExternal : External where
  ObjectMeta := Unit
  ListMeta := Unit
  LabelSelector := Unit
  Time := Int
  Capabilities := Unit
  StorageVolume := Unit
  Float64 := ℚ
  formatFloat := some
  parseFloat := some
  objectMeta := unitCodec
  listMeta := unitCodec
  labelSelector := unitCodec
  time := secondsCodec
  capabilities := unitCodec
  storageVolume := unitCodec

/-! ## Sample values -/

/-- A populated StorageCohort over the concrete instance: a selector, a cohort manager
given as a map, a provisioner, and one component with conditions of all three kinds. -/
def sampleCohort : StorageCohort plainExternal where
  TypeMeta := ⟨"StorageCohort", "openebs.io/v1alpha1"⟩
  ObjectMeta := ()
  Spec := {
    NodeSelector := some ()
    CohortManager := .map [("name", .string "lvm-manager"), ("replicas", .float64 3)]
    DefaultStorageProvisioner := "openebs.io/scp-lvm-provisioner" }
  Status := {
    Components := [{
      CohortCondition := [
        ⟨CohortConditionTypeReady, ConditionTrue, 1700000000, 1600000000, "Started", ""⟩,
        ⟨CohortConditionTypeSchedulable, ConditionFalse, 1700000000, 0, "", "cordoned"⟩]
      CohortManagerCondition := [
        ⟨"Healthy", ConditionUnknown, 0, 0, "", ""⟩]
      NodeCondition := [
        ⟨"virtual-node-1", [⟨"DiskPressure", ConditionFalse, 1700000000, 1650000000, "", ""⟩]⟩] }]
    Capabilities := () }

/-- The sample cohort with a cohort manager of Go type []string. -/
def sampleTypedManagerCohort : StorageCohort plainExternal :=
  { sampleCohort with
    Spec := { sampleCohort.Spec with CohortManager := .strings ["lvm-manager"] } }

/-- What decoding the document of sampleTypedManagerCohort gives: the cohort manager is
a []interface. -/
def sampleTypedManagerCohortDecoded : StorageCohort plainExternal :=
  { sampleCohort with
    Spec := { sampleCohort.Spec with CohortManager := .slice [.string "lvm-manager"] } }

/-- A ComponentStatus document whose cohort level condition has a third type. -/
def degradedDocument : JSONValue :=
  .object [("cohortCondition", .array [
    .object [("type", .string "Degraded"), ("status", .string "True")]])]

/-- The ComponentStatus that degradedDocument decodes to. -/
def degradedStatus : ComponentStatus plainExternal :=
  ⟨[⟨⟨"Degraded"⟩, ConditionTrue, 0, 0, "", ""⟩], [], []⟩

/-- A condition document whose status is none of True, False and Unknown. -/
def pendingDocument : JSONValue :=
  .object [("type", .string "Ready"), ("status", .string "Pending")]

/-- The CohortCondition that pendingDocument decodes to. -/
def pendingCohortCondition : CohortCondition plainExternal :=
  ⟨CohortConditionTypeReady, ⟨"Pending"⟩, 0, 0, "", ""⟩

/-- The ComponentCondition that pendingDocument decodes to. -/
def pendingComponentCondition : ComponentCondition plainExternal :=
  ⟨"Ready", ⟨"Pending"⟩, 0, 0, "", ""⟩

theorem ok_bind {ε α β : Type} (a : α) (f : α → Except ε β) : (Except.ok a >>= f) = f a := rfl

theorem decodeStruct_nil {σ : Type} (step : σ → String → JSONValue → Except String σ) (cur : σ) :
    decodeStruct step cur (struct []) = .ok cur := rfl

theorem decodeStruct_field {σ : Type} (step : σ → String → JSONValue → Except String σ)
    (cur : σ) (k : String) (v : JSONValue) (rest : List (List (String × JSONValue))) :
    decodeStruct step cur (struct (field k v :: rest)) =
      step cur k v >>= fun s => decodeStruct step s (struct rest) := by
  simp [decodeStruct, struct, field]

theorem decodeStruct_omitEmpty {σ : Type} (step : σ → String → JSONValue → Except String σ)
    (cur : σ) (e : Bool) (k : String) (v : JSONValue) (rest : List (List (String × JSONValue))) :
    decodeStruct step cur (struct (omitEmpty e k v :: rest)) =
      if e then decodeStruct step cur (struct rest)
      else step cur k v >>= fun s => decodeStruct step s (struct rest) := by
  cases e <;> simp [decodeStruct, struct, omitEmpty]

theorem decodeStruct_skip {σ : Type} (step : σ → String → JSONValue → Except String σ)
    (cur : σ) (rest : List (List (String × JSONValue))) :
    decodeStruct step cur (struct ([] :: rest)) = decodeStruct step cur (struct rest) := by
  simp [decodeStruct, struct]

theorem decodeSlice_map {α : Type} (zero : α) (dec : α → JSONValue → Except String α)
    (enc : α → JSONValue) (l : List α) (h : ∀ a ∈ l, dec zero (enc a) = .ok a) :
    decodeSlice zero dec [] (.array (l.map enc)) = .ok l := by
  simp only [decodeSlice]
  induction l with
  | nil => rfl
  | cons a l ih =>
    have ha := h a (List.mem_cons_self a l)
    have hl := ih (fun b hb => h b (List.mem_cons_of_mem a hb))
    simp only [List.map_cons, decodeItems, List.headD_nil, List.tail_nil, ha, hl, Except.map]

/-! ## Round trip of the conditions -/

theorem cohortCondition_step_type (X : External) (c : CohortCondition X) (v : String) :
    CohortCondition.step X c "type" (.string v) = .ok { c with Type_ := ⟨v⟩ } := rfl

theorem cohortCondition_step_status (X : External) (c : CohortCondition X) (v : String) :
    CohortCondition.step X c "status" (.string v) = .ok { c with Status := ⟨v⟩ } := rfl

theorem cohortCondition_step_reason (X : External) (c : CohortCondition X) (v : String) :
    CohortCondition.step X c "reason" (.string v) = .ok { c with Reason := v } := rfl

theorem cohortCondition_step_message (X : External) (c : CohortCondition X) (v : String) :
    CohortCondition.step X c "message" (.string v) = .ok { c with Message := v } := rfl

theorem cohortCondition_step_lastHeartbeatTime (X : External) (c : CohortCondition X)
    (j : JSONValue) :
    CohortCondition.step X c "lastHeartbeatTime" j =
      (X.time.unmarshal c.LastHeartbeatTime j).map
        (fun v => { c with LastHeartbeatTime := v }) := rfl

theorem cohortCondition_step_lastTransitionTime (X : External) (c : CohortCondition X)
    (j : JSONValue) :
    CohortCondition.step X c "lastTransitionTime" j =
      (X.time.unmarshal c.LastTransitionTime j).map
        (fun v => { c with LastTransitionTime := v }) := rfl

theorem cohortCondition_roundtrip (X : External) (c : CohortCondition X) (h : c.Portable) :
    unmarshalCohortCondition X (CohortCondition.zero X) (marshalCohortCondition X c) = .ok c := by
  obtain ⟨⟨h1e, h1r⟩, ⟨h2e, h2r⟩⟩ := h
  simp only [unmarshalCohortCondition, marshalCohortCondition, decodeStruct_field,
    decodeStruct_omitEmpty, decodeStruct_nil, cohortCondition_step_type,
    cohortCondition_step_status, cohortCondition_step_reason, cohortCondition_step_message,
    cohortCondition_step_lastHeartbeatTime, cohortCondition_step_lastTransitionTime, ok_bind,
    CohortCondition.zero]
  rcases c with ⟨⟨t⟩, ⟨st⟩, hb, tr, r, m⟩
  simp only at h1e h1r h2e h2r ⊢
  split_ifs <;> simp_all [Except.map, bind, Except.bind]

theorem componentCondition_step_type (X : External) (c : ComponentCondition X) (v : String) :
    ComponentCondition.step X c "type" (.string v) = .ok { c with Type_ := v } := rfl

theorem componentCondition_step_status (X : External) (c : ComponentCondition X) (v : String) :
    ComponentCondition.step X c "status" (.string v) = .ok { c with Status := ⟨v⟩ } := rfl

theorem componentCondition_step_reason (X : External) (c : ComponentCondition X) (v : String) :
    ComponentCondition.step X c "reason" (.string v) = .ok { c with Reason := v } := rfl

theorem componentCondition_step_message (X : External) (c : ComponentCondition X)
    (v : String) :
    ComponentCondition.step X c "message" (.string v) = .ok { c with Message := v } := rfl

theorem componentCondition_step_lastHeartbeatTime (X : External) (c : ComponentCondition X)
    (j : JSONValue) :
    ComponentCondition.step X c "lastHeartbeatTime" j =
      (X.time.unmarshal c.LastHeartbeatTime j).map
        (fun v => { c with LastHeartbeatTime := v }) := rfl

theorem componentCondition_step_lastTransitionTime (X : External) (c : ComponentCondition X)
    (j : JSONValue) :
    ComponentCondition.step X c "lastTransitionTime" j =
      (X.time.unmarshal c.LastTransitionTime j).map
        (fun v => { c with LastTransitionTime := v }) := rfl

theorem componentCondition_roundtrip (X : External) (c : ComponentCondition X)
    (h : c.Portable) :
    unmarshalComponentCondition X (ComponentCondition.zero X)
      (marshalComponentCondition X c) = .ok c := by
  obtain ⟨⟨h1e, h1r⟩, ⟨h2e, h2r⟩⟩ := h
  simp only [unmarshalComponentCondition, marshalComponentCondition, decodeStruct_field,
    decodeStruct_omitEmpty, decodeStruct_nil, componentCondition_step_type,
    componentCondition_step_status, componentCondition_step_reason,
    componentCondition_step_message, componentCondition_step_lastHeartbeatTime,
    componentCondition_step_lastTransitionTime, ok_bind, ComponentCondition.zero]
  rcases c with ⟨t, ⟨st⟩, hb, tr, r, m⟩
  simp only at h1e h1r h2e h2r ⊢
  split_ifs <;> simp_all [Except.map, bind, Except.bind]

theorem cohortNodeCondition_step_name (X : External) (c : CohortNodeCondition X)
    (v : String) :
    CohortNodeCondition.step X c "name" (.string v) = .ok { c with Name := v } := rfl

theorem cohortNodeCondition_step_condition (X : External) (c : CohortNodeCondition X)
    (j : JSONValue) :
    CohortNodeCondition.step X c "condition" j =
      (decodeSlice (ComponentCondition.zero X) (unmarshalComponentCondition X)
        c.Condition j).map (fun v => { c with Condition := v }) := rfl

theorem cohortNodeCondition_roundtrip (X : External) (n : CohortNodeCondition X)
    (h : n.Portable) :
    unmarshalCohortNodeCondition X (CohortNodeCondition.zero X)
      (marshalCohortNodeCondition X n) = .ok n := by
  have hs := decodeSlice_map (ComponentCondition.zero X) (unmarshalComponentCondition X)
    (marshalComponentCondition X) n.Condition
    (fun c hc => componentCondition_roundtrip X c (h c hc))
  rcases n with ⟨name, conds⟩
  simp only at hs
  simp only [unmarshalCohortNodeCondition, marshalCohortNodeCondition, decodeStruct_field,
    decodeStruct_omitEmpty, decodeStruct_nil, cohortNodeCondition_step_name,
    cohortNodeCondition_step_condition, ok_bind, CohortNodeCondition.zero]
  cases conds <;> simp_all [Except.map, bind, Except.bind]

theorem componentStatus_step_cohortCondition (X : External) (c : ComponentStatus X)
    (j : JSONValue) :
    ComponentStatus.step X c "cohortCondition" j =
      (decodeSlice (CohortCondition.zero X) (unmarshalCohortCondition X)
        c.CohortCondition j).map (fun v => { c with CohortCondition := v }) := rfl

theorem componentStatus_step_cohortManagerCondition (X : External) (c : ComponentStatus X)
    (j : JSONValue) :
    ComponentStatus.step X c "cohortManagerCondition" j =
      (decodeSlice (ComponentCondition.zero X) (unmarshalComponentCondition X)
        c.CohortManagerCondition j).map (fun v => { c with CohortManagerCondition := v }) := rfl

theorem componentStatus_step_nodeCondition (X : External) (c : ComponentStatus X)
    (j : JSONValue) :
    ComponentStatus.step X c "nodeCondition" j =
      (decodeSlice (CohortNodeCondition.zero X) (unmarshalCohortNodeCondition X)
        c.NodeCondition j).map (fun v => { c with NodeCondition := v }) := rfl

theorem componentStatus_roundtrip (X : External) (c : ComponentStatus X) (h : c.Portable) :
    unmarshalComponentStatus X (ComponentStatus.zero X) (marshalComponentStatus X c) = .ok c := by
  obtain ⟨h1, h2, h3⟩ := h
  have e1 := decodeSlice_map (CohortCondition.zero X) (unmarshalCohortCondition X)
    (marshalCohortCondition X) c.CohortCondition
    (fun d hd => cohortCondition_roundtrip X d (h1 d hd))
  have e2 := decodeSlice_map (ComponentCondition.zero X) (unmarshalComponentCondition X)
    (marshalComponentCondition X) c.CohortManagerCondition
    (fun d hd => componentCondition_roundtrip X d (h2 d hd))
  have e3 := decodeSlice_map (CohortNodeCondition.zero X) (unmarshalCohortNodeCondition X)
    (marshalCohortNodeCondition X) c.NodeCondition
    (fun d hd => cohortNodeCondition_roundtrip X d (h3 d hd))
  rcases c with ⟨l1, l2, l3⟩
  simp only at e1 e2 e3
  simp only [unmarshalComponentStatus, marshalComponentStatus, decodeStruct_field,
    decodeStruct_omitEmpty, decodeStruct_nil, componentStatus_step_cohortCondition,
    componentStatus_step_cohortManagerCondition, componentStatus_step_nodeCondition, ok_bind,
    ComponentStatus.zero]
  cases l1 <;> cases l2 <;> cases l3 <;> simp_all [Except.map, bind, Except.bind]

theorem storageCohortStatus_step_components (X : External) (s : StorageCohortStatus X)
    (j : JSONValue) :
    StorageCohortStatus.step X s "components" j =
      (decodeSlice (ComponentStatus.zero X) (unmarshalComponentStatus X)
        s.Components j).map (fun v => { s with Components := v }) := rfl

theorem storageCohortStatus_step_capabilities (X : External) (s : StorageCohortStatus X)
    (j : JSONValue) :
    StorageCohortStatus.step X s "capabilities" j =
      (X.capabilities.unmarshal s.Capabilities j).map
        (fun v => { s with Capabilities := v }) := rfl

theorem storageCohortStatus_roundtrip (X : External) (s : StorageCohortStatus X)
    (h : s.Portable) :
    unmarshalStorageCohortStatus X (StorageCohortStatus.zero X)
      (marshalStorageCohortStatus X s) = .ok s := by
  obtain ⟨h1, h2e, h2r⟩ := h
  have e1 := decodeSlice_map (ComponentStatus.zero X) (unmarshalComponentStatus X)
    (marshalComponentStatus X) s.Components
    (fun d hd => componentStatus_roundtrip X d (h1 d hd))
  rcases s with ⟨l1, cap⟩
  simp only at h2e h2r e1
  simp only [unmarshalStorageCohortStatus, marshalStorageCohortStatus, decodeStruct_field,
    decodeStruct_omitEmpty, decodeStruct_nil, storageCohortStatus_step_components,
    storageCohortStatus_step_capabilities, ok_bind, StorageCohortStatus.zero]
  cases l1 <;> split_ifs <;> simp_all [Except.map, bind, Except.bind]

/-! ## Round trip of the untyped cohort manager -/

theorem mapStore_append {F : Type} (k : String) (v : GoAny F) (acc : List (String × GoAny F))
    (h : ∀ e ∈ acc, e.1 < k) : mapStore k v acc = acc ++ [(k, v)] := by
  induction acc with
  | nil => rfl
  | cons e rest ih =>
    have he : e.1 < k := h e (List.mem_cons_self e rest)
    have h1 : ¬ k = e.1 := fun heq => absurd he (heq ▸ lt_irrefl k)
    have h2 : ¬ k < e.1 := lt_asymm he
    simp only [mapStore, h1, h2, if_false, List.cons_append]
    rw [ih (fun b hb => h b (List.mem_cons_of_mem e hb))]

mutual
theorem unmarshalAny_marshalAny {F : Type} (fmt : F → Option ℚ) (parse : ℚ → Option F) :
    ∀ v : GoAny F, v.DocumentNative fmt parse →
      ∃ j, marshalAny fmt v = .ok j ∧ unmarshalAny parse j = .ok v
  | .nil, _ => ⟨.null, rfl, rfl⟩
  | .bool b, _ => ⟨.bool b, rfl, rfl⟩
  | .float64 x, h => by
    obtain ⟨q, hq, hp⟩ := h
    refine ⟨.number q, ?_, ?_⟩
    · simp only [marshalAny, hq]
    · simp only [unmarshalAny, hp]
  | .string s, _ => ⟨.string s, rfl, rfl⟩
  | .slice items, h => by
    obtain ⟨js, hm, hu⟩ := unmarshalAnyItems_marshalAnyItems fmt parse items h
    refine ⟨.array js, ?_, ?_⟩
    · simp only [marshalAny, hm, Except.map]
    · simp only [unmarshalAny, hu, Except.map]
  | .map entries, h => by
    obtain ⟨ms, hm, hu⟩ :=
      unmarshalAnyMembers_marshalAnyEntries fmt parse entries [] h.1 h.2 (by simp)
    refine ⟨.object ms, ?_, ?_⟩
    · simp only [marshalAny, hm, Except.map]
    · simp only [unmarshalAny, hu, Except.map, List.nil_append]
  | .nilSlice, h => False.elim h
  | .nilMap, h => False.elim h
  | .strings _, h => False.elim h
theorem unmarshalAnyItems_marshalAnyItems {F : Type} (fmt : F → Option ℚ)
    (parse : ℚ → Option F) :
    ∀ items : List (GoAny F), GoAny.ItemsNative fmt parse items →
      ∃ js, marshalAnyItems fmt items = .ok js ∧ unmarshalAnyItems parse js = .ok items
  | [], _ => ⟨[], rfl, rfl⟩
  | v :: rest, h => by
    obtain ⟨j, hm, hu⟩ := unmarshalAny_marshalAny fmt parse v h.1
    obtain ⟨js, hms, hus⟩ := unmarshalAnyItems_marshalAnyItems fmt parse rest h.2
    refine ⟨j :: js, ?_, ?_⟩
    · simp only [marshalAnyItems, hm, hms, Except.map]
    · simp only [unmarshalAnyItems, hu, hus, Except.map]
theorem unmarshalAnyMembers_marshalAnyEntries {F : Type} (fmt : F → Option ℚ)
    (parse : ℚ → Option F) :
    ∀ (entries acc : List (String × GoAny F)), GoAny.EntriesNative fmt parse entries →
      (entries.map (fun e => e.1)).Pairwise (fun a b => a < b) →
      (∀ a ∈ acc, ∀ e ∈ entries, a.1 < e.1) →
      ∃ ms, marshalAnyEntries fmt entries = .ok ms ∧
        unmarshalAnyMembers parse acc ms = .ok (acc ++ entries)
  | [], acc, _, _, _ => ⟨[], rfl, by simp [unmarshalAnyMembers]⟩
  | (k, v) :: rest, acc, h, hp, hacc => by
    rw [List.map_cons, List.pairwise_cons] at hp
    obtain ⟨j, hm, hu⟩ := unmarshalAny_marshalAny fmt parse v h.1
    obtain ⟨ms, hms, hus⟩ :=
      unmarshalAnyMembers_marshalAnyEntries fmt parse rest (acc ++ [(k, v)]) h.2 hp.2 (by
        intro a ha e he
        rcases List.mem_append.mp ha with ha | ha
        · exact hacc a ha e (List.mem_cons_of_mem _ he)
        · rw [List.mem_singleton.mp ha]
          exact hp.1 e.1 (List.mem_map_of_mem (fun e => e.1) he))
    refine ⟨(k, j) :: ms, ?_, ?_⟩
    · simp only [marshalAnyEntries, hm, hms, Except.map]
    · simp only [unmarshalAnyMembers, hu]
      rw [mapStore_append k v acc (fun a ha => hacc a ha (k, v) (List.mem_cons_self _ _)), hus]
      simp
end

/-! ## Round trip of the resource -/

theorem storageCohortSpec_step_nodeSelector (X : External) (s : StorageCohortSpec X)
    (j : JSONValue) :
    StorageCohortSpec.step X s "nodeSelector" j =
      (decodePointer X.labelSelector.zero X.labelSelector.unmarshal s.NodeSelector j).map
        (fun v => { s with NodeSelector := v }) := rfl

theorem storageCohortSpec_step_cohortManager (X : External) (s : StorageCohortSpec X)
    (j : JSONValue) :
    StorageCohortSpec.step X s "cohortManager" j =
      (unmarshalAny X.parseFloat j).map (fun v => { s with CohortManager := v }) := rfl

theorem storageCohortSpec_step_defaultStorageProvisioner (X : External)
    (s : StorageCohortSpec X) (v : String) :
    StorageCohortSpec.step X s "defaultStorageProvisioner" (.string v) =
      .ok { s with DefaultStorageProvisioner := v } := rfl

theorem decodePointer_of_ne_null {α : Type} (zero : α)
    (dec : α → JSONValue → Except String α) (cur : Option α) (j : JSONValue)
    (h : j ≠ .null) : decodePointer zero dec cur j = (dec (cur.getD zero) j).map some := by
  cases j <;> first | rfl | exact absurd rfl h

theorem storageCohortSpec_roundtrip (X : External) (s : StorageCohortSpec X)
    (h : s.Portable) :
    ∃ j, marshalStorageCohortSpec X s = .ok j ∧
      unmarshalStorageCohortSpec X (StorageCohortSpec.zero X) j = .ok s := by
  obtain ⟨hsel, hany⟩ := h
  obtain ⟨jm, hm, hu⟩ := unmarshalAny_marshalAny X.formatFloat X.parseFloat s.CohortManager hany
  rcases s with ⟨sel, mgr, prov⟩
  simp only at hsel hany hm hu
  simp only [unmarshalStorageCohortSpec, marshalStorageCohortSpec, StorageCohortSpec.zero]
  cases sel with
  | none =>
    cases mgr <;>
      simp only [hm, Except.map] <;>
      refine ⟨_, rfl, ?_⟩ <;>
      simp only [decodeStruct_field, decodeStruct_omitEmpty, decodeStruct_nil,
        decodeStruct_skip, storageCohortSpec_step_cohortManager,
        storageCohortSpec_step_defaultStorageProvisioner, ok_bind, hu, Except.map] <;>
      split_ifs <;> simp_all
  | some l =>
    obtain ⟨hn, hr⟩ := hsel l rfl
    cases mgr <;>
      simp only [hm, Except.map] <;>
      refine ⟨_, rfl, ?_⟩ <;>
      simp only [decodeStruct_field, decodeStruct_omitEmpty, decodeStruct_nil,
        decodeStruct_skip, storageCohortSpec_step_cohortManager,
        storageCohortSpec_step_nodeSelector, decodePointer_of_ne_null _ _ _ _ hn,
        storageCohortSpec_step_defaultStorageProvisioner, ok_bind, hu, Option.getD, hr,
        Except.map] <;>
      split_ifs <;> simp_all

theorem storageCohort_step_kind (X : External) (c : StorageCohort X) (v : String) :
    StorageCohort.step X c "kind" (.string v) =
      .ok { c with TypeMeta := { c.TypeMeta with Kind := v } } := rfl

theorem storageCohort_step_apiVersion (X : External) (c : StorageCohort X) (v : String) :
    StorageCohort.step X c "apiVersion" (.string v) =
      .ok { c with TypeMeta := { c.TypeMeta with APIVersion := v } } := rfl

theorem storageCohort_step_metadata (X : External) (c : StorageCohort X) (j : JSONValue) :
    StorageCohort.step X c "metadata" j =
      (X.objectMeta.unmarshal c.ObjectMeta j).map (fun v => { c with ObjectMeta := v }) := rfl

theorem storageCohort_step_spec (X : External) (c : StorageCohort X) (j : JSONValue) :
    StorageCohort.step X c "spec" j =
      (unmarshalStorageCohortSpec X c.Spec j).map (fun v => { c with Spec := v }) := rfl

theorem storageCohort_step_status (X : External) (c : StorageCohort X) (j : JSONValue) :
    StorageCohort.step X c "status" j =
      (unmarshalStorageCohortStatus X c.Status j).map (fun v => { c with Status := v }) := rfl

theorem storageCohort_decode_document (X : External) (c : StorageCohort X)
    (hmeta : X.objectMeta.RoundTrips c.ObjectMeta) (hstatus : c.Status.Portable)
    (j : JSONValue)
    (hj : unmarshalStorageCohortSpec X (StorageCohortSpec.zero X) j = .ok c.Spec) :
    unmarshalStorageCohort X (StorageCohort.zero X)
      (struct [
        omitEmpty (c.TypeMeta.Kind == "") "kind" (.string c.TypeMeta.Kind),
        omitEmpty (c.TypeMeta.APIVersion == "") "apiVersion" (.string c.TypeMeta.APIVersion),
        omitEmpty (X.objectMeta.isEmptyValue c.ObjectMeta) "metadata"
          (X.objectMeta.marshal c.ObjectMeta),
        field "spec" j,
        field "status" (marshalStorageCohortStatus X c.Status)]) = .ok c := by
  obtain ⟨hme, hmr⟩ := hmeta
  have e2 := storageCohortStatus_roundtrip X c.Status hstatus
  rcases c with ⟨⟨kind, ver⟩, om, spec, status⟩
  simp only at hme hmr hj e2
  simp only [unmarshalStorageCohort, decodeStruct_field,
    decodeStruct_omitEmpty, decodeStruct_nil, storageCohort_step_kind,
    storageCohort_step_apiVersion, storageCohort_step_metadata, storageCohort_step_spec,
    storageCohort_step_status, ok_bind, StorageCohort.zero]
  split_ifs <;> simp_all [Except.map, bind, Except.bind]

/-- C1, as amended: a StorageCohort whose cohort manager holds a document native value,
whose parts declared elsewhere survive the trip through their own document form and
whose document is nested no deeper than json.Unmarshal accepts is marshalled without
error, and unmarshalling its document into the zero value gives it back, field for
field. -/
theorem storageCohort_roundtrip (X : External) (c : StorageCohort X) (h : c.Portable) :
    roundTrip X c = .ok c := by
  obtain ⟨hmeta, hspec, hstatus, hdepth⟩ := h
  obtain ⟨j, hm, hu⟩ := storageCohortSpec_roundtrip X c.Spec hspec
  have hdoc := storageCohort_decode_document X c hmeta hstatus j hu
  simp only [documentDepth, marshalStorageCohort, hm, Except.map] at hdepth
  simp only [roundTrip, marshalStorageCohort, hm, Except.map, ok_bind, jsonUnmarshal,
    not_lt.mpr hdepth, if_false]
  exact hdoc

/-- Witness of storageCohort_roundtrip: the populated sample cohort. -/
theorem storageCohort_roundtrip_witness :
    sampleCohort.Portable ∧ roundTrip plainExternal sampleCohort = .ok sampleCohort := by
  have hp : sampleCohort.Portable := by
    refine ⟨?_, ?_, ?_, ?_⟩
    · simp [Codec.RoundTrips, sampleCohort, plainExternal, unitCodec]
    · simp [StorageCohortSpec.Portable, sampleCohort, plainExternal, unitCodec,
        GoAny.DocumentNative, GoAny.EntriesNative]
      decide
    · simp [StorageCohortStatus.Portable, ComponentStatus.Portable,
        CohortNodeCondition.Portable, CohortCondition.Portable, ComponentCondition.Portable,
        Codec.RoundTrips, sampleCohort, plainExternal, unitCodec, secondsCodec]
    · decide
  exact ⟨hp, storageCohort_roundtrip plainExternal sampleCohort hp⟩

/-- C1, as stated, fails: a cohort whose cohort manager is a []string is written as an
array of strings, which decodes to a []interface, not to the []string it was. -/
theorem typed_manager_breaks_roundtrip :
    roundTrip plainExternal sampleTypedManagerCohort = .ok sampleTypedManagerCohortDecoded ∧
    roundTrip plainExternal sampleTypedManagerCohort ≠ .ok sampleTypedManagerCohort := by
  have h : roundTrip plainExternal sampleTypedManagerCohort =
      .ok sampleTypedManagerCohortDecoded := by
    rfl
  refine ⟨h, ?_⟩
  rw [h]
  intro hc
  have := congrArg (fun r => match r with
    | Except.ok c => (match c.Spec.CohortManager with | GoAny.strings _ => true | _ => false)
    | _ => false) hc
  simp [sampleTypedManagerCohortDecoded, sampleTypedManagerCohort] at this

/-! ## The two condition records side by side -/

/-- C7: ComponentCondition is CohortCondition with a string for the type.  The map that
turns Type into its underlying string and copies Status, LastHeartbeatTime,
LastTransitionTime, Reason and Message is a bijection between the two records, and a
CohortCondition and its image have the same document. -/
theorem componentCondition_same_shape (X : External) :
    Function.Bijective (toComponentCondition X) ∧
    ∀ c : CohortCondition X,
      marshalComponentCondition X (toComponentCondition X c) = marshalCohortCondition X c := by
  refine ⟨⟨?_, ?_⟩, fun c => rfl⟩
  · intro a b hab
    rcases a with ⟨⟨ta⟩, sa, ha, la, ra, ma⟩
    rcases b with ⟨⟨tb⟩, sb, hb, lb, rb, mb⟩
    simp only [toComponentCondition, ComponentCondition.mk.injEq] at hab
    obtain ⟨h1, h2, h3, h4, h5, h6⟩ := hab
    subst h1 h2 h3 h4 h5 h6
    rfl
  · intro d
    exact ⟨toCohortCondition X d, rfl⟩

/-! ## Keys on the wire -/

theorem hasKey_struct_cons (key : String) (l : List (String × JSONValue))
    (rest : List (List (String × JSONValue))) :
    hasKey key (struct (l :: rest)) =
      (l.any (fun kv => kv.1 == key) || hasKey key (struct rest)) := by
  simp [hasKey, struct]

theorem hasKey_struct_nil (key : String) : hasKey key (struct []) = false := rfl

/-- C9: the document of a CohortCondition and of a ComponentCondition has the keys type
and status whatever their values, has the key reason exactly when Reason is not the
empty string and the key message exactly when Message is not the empty string; the
document of a CohortNodeCondition has the key name whatever the name. -/
theorem condition_wire_keys (X : External) :
    (∀ c : CohortCondition X,
      hasKey "type" (marshalCohortCondition X c) = true ∧
      hasKey "status" (marshalCohortCondition X c) = true ∧
      (hasKey "reason" (marshalCohortCondition X c) = true ↔ c.Reason ≠ "") ∧
      (hasKey "message" (marshalCohortCondition X c) = true ↔ c.Message ≠ "")) ∧
    (∀ c : ComponentCondition X,
      hasKey "type" (marshalComponentCondition X c) = true ∧
      hasKey "status" (marshalComponentCondition X c) = true ∧
      (hasKey "reason" (marshalComponentCondition X c) = true ↔ c.Reason ≠ "") ∧
      (hasKey "message" (marshalComponentCondition X c) = true ↔ c.Message ≠ "")) ∧
    (∀ n : CohortNodeCondition X,
      hasKey "name" (marshalCohortNodeCondition X n) = true) := by
  refine ⟨fun c => ?_, fun c => ?_, fun n => ?_⟩
  · simp only [marshalCohortCondition, hasKey_struct_cons, hasKey_struct_nil, field, omitEmpty]
    cases X.time.isEmptyValue c.LastHeartbeatTime <;>
      cases X.time.isEmptyValue c.LastTransitionTime <;>
      by_cases hr : c.Reason = "" <;> by_cases hm : c.Message = "" <;> simp [hr, hm]
  · simp only [marshalComponentCondition, hasKey_struct_cons, hasKey_struct_nil, field,
      omitEmpty]
    cases X.time.isEmptyValue c.LastHeartbeatTime <;>
      cases X.time.isEmptyValue c.LastTransitionTime <;>
      by_cases hr : c.Reason = "" <;> by_cases hm : c.Message = "" <;> simp [hr, hm]
  · simp [marshalCohortNodeCondition, hasKey_struct_cons, field]

/-! ## A type outside the two constants -/

/-- C4, as stated, fails: a ComponentStatus document whose cohort level condition has
the type Degraded decodes to a ComponentStatus whose CohortCondition list holds a
condition that is neither Ready nor Schedulable. -/
theorem cohortCondition_type_outside_constants :
    unmarshalComponentStatus plainExternal (ComponentStatus.zero plainExternal)
      degradedDocument = .ok degradedStatus ∧
    ¬ ∀ c ∈ degradedStatus.CohortCondition,
      c.Type_ = CohortConditionTypeReady ∨ c.Type_ = CohortConditionTypeSchedulable := by
  refine ⟨rfl, ?_⟩
  intro h
  have h1 := h _ (List.mem_cons_self _ _)
  revert h1
  decide

/-- C4, as amended: Ready and Schedulable are two distinct constants, the strings Ready
and Schedulable, of a string type that is not closed: whatever string a document gives
as the type of a cohort level condition, decoding succeeds and the CohortCondition list
of the ComponentStatus holds a condition with that very string as its Type. -/
theorem cohortConditionType_constants_of_open_type (X : External) :
    CohortConditionTypeReady ≠ CohortConditionTypeSchedulable ∧
    CohortConditionTypeReady.s = "Ready" ∧
    CohortConditionTypeSchedulable.s = "Schedulable" ∧
    ∀ s : String, ∃ cs : ComponentStatus X,
      unmarshalComponentStatus X (ComponentStatus.zero X)
        (.object [("cohortCondition", .array [.object [("type", .string s)]])]) = .ok cs ∧
      ∃ c ∈ cs.CohortCondition, c.Type_.s = s := by
  refine ⟨by decide, rfl, rfl, fun s => ?_⟩
  exact ⟨⟨[{ CohortCondition.zero X with Type_ := ⟨s⟩ }], [], []⟩, rfl,
    _, List.mem_cons_self _ _, rfl⟩

/-- C6, as stated, fails: a condition document whose status is Pending decodes, as a
CohortCondition and as a ComponentCondition, to a condition whose Status is none of
True, False and Unknown. -/
theorem condition_status_outside_three :
    unmarshalCohortCondition plainExternal (CohortCondition.zero plainExternal)
      pendingDocument = .ok pendingCohortCondition ∧
    unmarshalComponentCondition plainExternal (ComponentCondition.zero plainExternal)
      pendingDocument = .ok pendingComponentCondition ∧
    ¬ (pendingCohortCondition.Status = ConditionTrue ∨
        pendingCohortCondition.Status = ConditionFalse ∨
        pendingCohortCondition.Status = ConditionUnknown) ∧
    ¬ (pendingComponentCondition.Status = ConditionTrue ∨
        pendingComponentCondition.Status = ConditionFalse ∨
        pendingComponentCondition.Status = ConditionUnknown) :=
  ⟨rfl, rfl, by decide, by decide⟩

/-- C6, as amended: True, False and Unknown are three pairwise distinct constants, the
strings True, False and Unknown, of a string type: whatever string a document gives as
the status of a condition, decoding succeeds, for a CohortCondition and for a
ComponentCondition, and the Status of the condition is that very string. -/
theorem conditionStatus_constants_of_open_type (X : External) :
    ConditionTrue ≠ ConditionFalse ∧ ConditionTrue ≠ ConditionUnknown ∧
    ConditionFalse ≠ ConditionUnknown ∧
    ConditionTrue.s = "True" ∧ ConditionFalse.s = "False" ∧ ConditionUnknown.s = "Unknown" ∧
    ∀ s : String,
      (∃ c, unmarshalCohortCondition X (CohortCondition.zero X)
        (.object [("status", .string s)]) = .ok c ∧ c.Status.s = s) ∧
      (∃ c, unmarshalComponentCondition X (ComponentCondition.zero X)
        (.object [("status", .string s)]) = .ok c ∧ c.Status.s = s) := by
  refine ⟨by decide, by decide, by decide, rfl, rfl, rfl, fun s => ⟨?_, ?_⟩⟩
  · exact ⟨{ CohortCondition.zero X with Status := ⟨s⟩ }, rfl, rfl⟩
  · exact ⟨{ ComponentCondition.zero X with Status := ⟨s⟩ }, rfl, rfl⟩

/-- C3: a cohort level condition list is fully functional only when it carries a Ready
condition with status True and a Schedulable condition with status True, and is
non-functional in every other case; the list of a Ready condition with status True and
a Schedulable condition with status False is not fully functional. -/
theorem fullyFunctional_only_when_ready_and_schedulable (X : External) :
    (∀ l : List (CohortCondition X), fullyFunctional l = true ↔
      (∃ c ∈ l, c.Type_ = CohortConditionTypeReady ∧ c.Status = ConditionTrue) ∧
      (∃ c ∈ l, c.Type_ = CohortConditionTypeSchedulable ∧ c.Status = ConditionTrue)) ∧
    (∀ (h1 t1 h2 t2 : X.Time) (r1 m1 r2 m2 : String),
      fullyFunctional [
        (⟨CohortConditionTypeReady, ConditionTrue, h1, t1, r1, m1⟩ : CohortCondition X),
        ⟨CohortConditionTypeSchedulable, ConditionFalse, h2, t2, r2, m2⟩] = false) := by
  constructor
  · intro l
    simp [fullyFunctional]
  · intro h1 t1 h2 t2 r1 m1 r2 m2
    simp [fullyFunctional, CohortConditionTypeReady, CohortConditionTypeSchedulable,
      ConditionTrue, ConditionFalse]

/-! ## Leaving optional keys out of the spec -/

end StorageCohortAPI
